import Mathlib

/-!
Shallow embedding of the resume-jd-matcher service.

The embedded code:
  - app/services/matcher.py   (class SkillMatcher): skill normalization,
    fuzzy matching, matched/missing partition, match percentage;
  - app/services/jd_parser.py (class JDParser): job-description validation;
  - app/api/routes.py         (analyze_resume): the analysis pipeline,
    with the external LLM collaborator abstracted as an oracle.

Python strings are modelled as lists of Unicode code points; str.lower and
str.strip are modelled on the ASCII range (the only range the repository's
skill tables and validation logic exercise).  Python floats are modelled as
exact rationals, with round(x, 2) modelled as round-half-to-even at two
decimal places.
-/

/-- A Python string, modelled as its list of Unicode code points. -/
abbrev Str := List Nat

/-- The code points of a Lean string literal; used to write the concrete
strings appearing in the source and in test scenarios. -/
def enc (s : String) : Str := s.data.map Char.toNat

namespace SkillMatcher

/-- One step of Python str.lower, ASCII model: an upper-case ASCII letter
(code 65..90) is shifted to its lower-case form, everything else is kept. -/
def lowerChar (c : Nat) : Nat := if 65 ≤ c ∧ c ≤ 90 then c + 32 else c

/-- Python str.lower (ASCII model): lower-case every character. -/
def lower (s : Str) : Str := s.map lowerChar

/-- The ASCII whitespace code points Python str.strip removes: space, tab,
newline, carriage return, vertical tab, form feed. -/
def isSpaceChar (c : Nat) : Bool :=
  c == 32 || c == 9 || c == 10 || c == 13 || c == 11 || c == 12

/-- Python str.strip: drop whitespace from both ends of the string. -/
def strip (s : Str) : Str :=
  ((s.dropWhile isSpaceChar).reverse.dropWhile isSpaceChar).reverse

/-- The alias table of SkillMatcher.normalize_skill (matcher.py lines 22-33),
in its Python insertion order. -/
def replacements : List (Str × Str) :=
  [(enc "javascript", enc "js"),
   (enc "typescript", enc "ts"),
   (enc "node.js", enc "nodejs"),
   (enc "react.js", enc "react"),
   (enc "vue.js", enc "vue"),
   (enc "angular.js", enc "angular"),
   (enc "c++", enc "cpp"),
   (enc "c#", enc "csharp"),
   (enc "postgresql", enc "postgres"),
   (enc "mongodb", enc "mongo")]

/-- The replacement loop of normalize_skill (matcher.py lines 35-37): walk the
alias table in order and substitute on exact equality with the key. -/
def applyReplacements (normalized : Str) : Str :=
  replacements.foldl (fun n p => if n = p.1 then p.2 else n) normalized

/-- SkillMatcher.normalize_skill (matcher.py lines 7-39):
skill.lower().strip(), then the alias-replacement loop. -/
def normalize_skill (skill : Str) : Str :=
  applyReplacements (strip (lower skill))

/-- Whether the list s starts with the list sub. -/
def startsWithList : Str → Str → Bool
  | _, [] => true
  | [], _ :: _ => false
  | a :: as, b :: bs => if b = a then startsWithList as bs else false

/-- Python substring containment: containsSub s sub is Python sub in s.
The empty list is a substring of everything, as in Python. -/
def containsSub : Str → Str → Bool
  | [], sub => sub.isEmpty
  | a :: rest, sub => startsWithList (a :: rest) sub || containsSub rest sub

/-- SkillMatcher.skills_match (matcher.py lines 41-64): normalize both skills,
accept on equality, else accept when one normalized form is a substring of
the other (Python: norm1 in norm2 or norm2 in norm1), else reject. -/
def skills_match (skill1 skill2 : Str) : Bool :=
  let norm1 := normalize_skill skill1
  let norm2 := normalize_skill skill2
  if norm1 = norm2 then true
  else if containsSub norm2 norm1 || containsSub norm1 norm2 then true
  else false

/-- SkillMatcher.find_matched_skills (matcher.py lines 66-95): for each
required skill in order, scan the resume skills; on the first match append
the required skill (its original text) to matched, otherwise to missing. -/
def find_matched_skills (resume_skills : List Str) : List Str → List Str × List Str
  | [] => ([], [])
  | req_skill :: rest =>
    let found := resume_skills.any (fun resume_skill => skills_match req_skill resume_skill)
    let r := find_matched_skills resume_skills rest
    if found then (req_skill :: r.1, r.2) else (r.1, req_skill :: r.2)

/-- Round-half-to-even to an integer, the tie-breaking rule of Python round. -/
def roundHalfEven (q : ℚ) : ℤ :=
  let f := Int.floor q
  if q - f < 1/2 then f
  else if 1/2 < q - f then f + 1
  else if f % 2 = 0 then f else f + 1

/-- Python round(x, 2): round to two decimal places, ties to even. -/
def roundTo2 (q : ℚ) : ℚ := (roundHalfEven (q * 100) : ℚ) / 100

/-- SkillMatcher.calculate_match_percentage (matcher.py lines 97-116):
100.0 when there are no required skills, else
round(matched_count / total_required * 100, 2). -/
def calculate_match_percentage (matched_count total_required : Nat) : ℚ :=
  if total_required = 0 then 100
  else roundTo2 ((matched_count : ℚ) / (total_required : ℚ) * 100)

/-- The dictionary SkillMatcher.match_resume_to_jd returns
(matcher.py lines 153-158). -/
structure MatchResult where
  matched_skills : List Str
  missing_skills : List Str
  matched_nice_to_have : List Str
  match_percentage : ℚ

/-- SkillMatcher.match_resume_to_jd (matcher.py lines 118-158). -/
def match_resume_to_jd (resume_skills required_skills nice_to_have_skills : List Str) :
    MatchResult :=
  let mm := find_matched_skills resume_skills required_skills
  let nn := find_matched_skills resume_skills nice_to_have_skills
  ⟨mm.1, mm.2, nn.1, calculate_match_percentage mm.1.length required_skills.length⟩

end SkillMatcher

/-- The error FastAPI HTTPException carries: a status code and a detail
message (routes.py, jd_parser.py). -/
structure HTTPException where
  status_code : Nat
  detail : String
deriving DecidableEq

namespace JDParser

/-- JDParser.MIN_JD_LENGTH (jd_parser.py line 7). -/
def MIN_JD_LENGTH : Nat := 50

/-- JDParser.validate_and_clean (jd_parser.py lines 9-39): reject a falsy
(empty) input with a 400, strip the text, reject a cleaned text shorter than
MIN_JD_LENGTH with a 400, else return the cleaned text.  (The Python
isinstance check cannot fire in this typed model: the input is a string.) -/
def validate_and_clean (jd_text : Str) : Except HTTPException Str :=
  if jd_text = [] then
    Except.error ⟨400, "Job description is required and must be text."⟩
  else
    let cleaned_text := SkillMatcher.strip jd_text
    if cleaned_text.length < MIN_JD_LENGTH then
      Except.error ⟨400, "Job description is too short. Minimum 50 characters required."⟩
    else
      Except.ok cleaned_text

end JDParser

namespace Routes

/-- The résumé-extraction reply (llm_service.parse_resume), one top-level
JSON object: each expected key is present (some) or absent (none).
routes.py reads the keys with dict.get and a default. -/
structure ResumeData where
  name : Option String
  total_experience_years : Option ℚ
  skills : Option (List Str)
  education : Option (List String)
  projects : Option (List String)
deriving DecidableEq

/-- The job-description-extraction reply (llm_service.parse_job_description),
one top-level JSON object with each expected key present or absent. -/
structure JDData where
  required_skills : Option (List Str)
  min_experience : Option ℚ
  nice_to_have_skills : Option (List Str)
deriving DecidableEq

/-- The synthesis reply (llm_service.create_final_analysis), one top-level
JSON object.  match_percentage models a percentage the model might echo back
in its reply; routes.py never reads such a key. -/
structure AnalysisData where
  candidate_summary : Option String
  strengths : Option (List String)
  gaps : Option (List String)
  improvement_suggestions : Option (List String)
  match_percentage : Option ℚ
deriving DecidableEq

/-- The response model FinalAnalysis (schemas/response.py lines 28-34). -/
structure FinalAnalysis where
  candidate_summary : String
  match_percentage : ℚ
  strengths : List String
  gaps : List String
  improvement_suggestions : List String
deriving DecidableEq

/-- The three generative-model calls analyze_resume can issue, in pipeline
order (routes.py steps 3, 4 and 6). -/
inductive LLMCall where
  | resumeExtraction
  | jdExtraction
  | synthesis
deriving DecidableEq

/-- The external generative-model collaborator for one request: what each of
the three calls would return if issued.  An error models an API failure or a
reply whose top level does not parse as JSON (llm_service.generate_json
raises in both cases); an ok value is the parsed top-level JSON object. -/
structure LLMOracle where
  parse_resume : Except String ResumeData
  parse_job_description : Except String JDData
  create_final_analysis : Except String AnalysisData

/-- The analyze_resume endpoint (routes.py lines 53-292), modelled as a pure
function from the PDF-extraction outcome, the raw job-description text and
the model oracle to the HTTP outcome, paired with the list of model calls
issued, in order.  The module keeps no state between requests (routes.py has
no cache and no module-level mutable data beyond the stateless service
objects), so consecutive requests are independent invocations of this
function.  Mirrors the code step by step: a raised HTTPException propagates
(except HTTPException: raise), any other exception becomes a 500
(except Exception).  Step 5 reads the skill lists with dict.get and default
[] (routes.py lines 148-151); step 7 reads the four narrative keys with
plain indexing (routes.py lines 214-220), so a missing key raises KeyError,
caught as a 500. -/
def analyze_resume (o : LLMOracle) (resume_text : Except HTTPException Str)
    (job_description : Str) : Except HTTPException FinalAnalysis × List LLMCall :=
  match resume_text with
  | Except.error e => (Except.error e, [])
  | Except.ok _ =>
    match JDParser.validate_and_clean job_description with
    | Except.error e => (Except.error e, [])
    | Except.ok _ =>
      match o.parse_resume with
      | Except.error msg =>
        (Except.error ⟨500, msg⟩, [LLMCall.resumeExtraction])
      | Except.ok resume_data =>
        match o.parse_job_description with
        | Except.error msg =>
          (Except.error ⟨500, msg⟩, [LLMCall.resumeExtraction, LLMCall.jdExtraction])
        | Except.ok jd_data =>
          let matching_result := SkillMatcher.match_resume_to_jd
            (resume_data.skills.getD [])
            (jd_data.required_skills.getD [])
            (jd_data.nice_to_have_skills.getD [])
          match o.create_final_analysis with
          | Except.error msg =>
            (Except.error ⟨500, msg⟩,
             [LLMCall.resumeExtraction, LLMCall.jdExtraction, LLMCall.synthesis])
          | Except.ok analysis_data =>
            match analysis_data.candidate_summary, analysis_data.strengths,
                analysis_data.gaps, analysis_data.improvement_suggestions with
            | some cs, some st, some gp, some im =>
              (Except.ok ⟨cs, matching_result.match_percentage, st, gp, im⟩,
               [LLMCall.resumeExtraction, LLMCall.jdExtraction, LLMCall.synthesis])
            | _, _, _, _ =>
              (Except.error ⟨500, "Unexpected error during analysis: KeyError"⟩,
               [LLMCall.resumeExtraction, LLMCall.jdExtraction, LLMCall.synthesis])

/-- The oracle o with the match_percentage field of a successful synthesis
reply replaced by q: the same model conversation except for the percentage
the model echoes back. -/
def setReplyPercentage (o : LLMOracle) (q : Option ℚ) : LLMOracle :=
  ⟨o.parse_resume, o.parse_job_description,
   o.create_final_analysis.map
     (fun a => ⟨a.candidate_summary, a.strengths, a.gaps,
                a.improvement_suggestions, q⟩)⟩

end Routes

section SanityChecks

open SkillMatcher

example : enc "ab" = [97, 98] := by decide

example : normalize_skill (enc "JavaScript") = enc "js" := by decide

example : normalize_skill (enc " C++ ") = enc "cpp" := by decide

example : skills_match (enc "Node.js") (enc "JavaScript") = true := by decide

example : skills_match (enc "React") (enc "JavaScript") = false := by decide

example : skills_match (enc "") (enc "Python") = true := by decide

example : find_matched_skills [enc "JavaScript"]
    [enc "React", enc "TypeScript", enc "Node.js"] =
    ([enc "Node.js"], [enc "React", enc "TypeScript"]) := by decide

example : JDParser.validate_and_clean (enc "short") =
    Except.error ⟨400, "Job description is too short. Minimum 50 characters required."⟩ := by
  rfl

example :
    (Routes.analyze_resume
      ⟨Except.ok ⟨none, none, none, none, none⟩,
       Except.ok ⟨none, none, none⟩,
       Except.ok ⟨some "s", some [], some [], some [], none⟩⟩
      (Except.ok (enc "resume text"))
      (enc "a job description text that is long enough to pass validation")).1 =
    Except.ok ⟨"s", 100, [], [], []⟩ := by rfl

example :
    (Routes.analyze_resume
      ⟨Except.ok ⟨none, none, none, none, none⟩,
       Except.ok ⟨none, none, none⟩,
       Except.ok ⟨none, some [], some [], some [], none⟩⟩
      (Except.ok (enc "resume text"))
      (enc "a job description text that is long enough to pass validation")).2 =
    [Routes.LLMCall.resumeExtraction, Routes.LLMCall.jdExtraction,
     Routes.LLMCall.synthesis] := by rfl

end SanityChecks

/-! ## Helper lemmas about the skill matcher -/

/-- The inner loop of find_matched_skills: whether some resume skill matches
the required skill req. -/
def anyMatch (resume_skills : List Str) (req : Str) : Bool :=
  resume_skills.any (fun resume_skill => SkillMatcher.skills_match req resume_skill)

lemma find_eq_filter (C R : List Str) :
    SkillMatcher.find_matched_skills C R =
      (R.filter (anyMatch C), R.filter (fun r => ! anyMatch C r)) := by
  induction R with
  | nil => rfl
  | cons r rest ih =>
    simp only [SkillMatcher.find_matched_skills, ih]
    cases h : C.any (fun rs => SkillMatcher.skills_match r rs) with
    | true => simp [List.filter_cons, anyMatch, h]
    | false => simp [List.filter_cons, anyMatch, h]

lemma filter_length_add (p : Str → Bool) (l : List Str) :
    (l.filter p).length + (l.filter (fun x => ! p x)).length = l.length := by
  induction l with
  | nil => rfl
  | cons a t ih => cases h : p a <;> simp [List.filter_cons, h] <;> omega


/-! ## C1: the JavaScript scenario -/

/-- C1 counterexample: for candidateSkills = ["JavaScript"] and
requiredSkills = ["React", "TypeScript", "Node.js"], the code does NOT
return matched = [] and missing = all three with percentage 0.0:
normalize_skill maps "JavaScript" to "js" and "Node.js" to "nodejs", and
"js" is a substring of "nodejs", so "Node.js" is matched. -/
theorem c1_counterexample :
    ¬ (SkillMatcher.find_matched_skills [enc "JavaScript"]
        [enc "React", enc "TypeScript", enc "Node.js"] =
        ([], [enc "React", enc "TypeScript", enc "Node.js"]) ∧
       (SkillMatcher.match_resume_to_jd [enc "JavaScript"]
        [enc "React", enc "TypeScript", enc "Node.js"] []).match_percentage = 0) := by
  intro h
  exact absurd h.1 (by decide)

/-! ## C2: the empty normalized string matches everything -/

/-- C2: evaluation of the code at the failing input.  skills_match("",
"Python") returns True even though the two normalized forms differ: the
empty normalized string is a Python substring of every string, so the
substring rule fires, with no guard in matcher.py lines 60-62. -/
theorem c2_empty_substring_matches :
    SkillMatcher.skills_match (enc "") (enc "Python") = true ∧
    SkillMatcher.normalize_skill (enc "") ≠ SkillMatcher.normalize_skill (enc "Python") := by
  constructor
  · decide
  · decide

/-! ## C3: find_matched_skills partitions the required list -/

/-- C3: for every candidate list C and required list R, find_matched_skills
returns (matched, missing) with len(matched) + len(missing) = len(R), every
element of R (counted with multiplicity, no dedup) in exactly one of the two
lists, no string in both, and both lists sublists of R — hence in R's input
order and with the required skill's original text. -/
theorem c3_partition : ∀ (C R : List Str),
    ((SkillMatcher.find_matched_skills C R).1.length +
      (SkillMatcher.find_matched_skills C R).2.length = R.length) ∧
    (∀ s, (SkillMatcher.find_matched_skills C R).1.count s +
      (SkillMatcher.find_matched_skills C R).2.count s = R.count s) ∧
    (∀ s, s ∈ (SkillMatcher.find_matched_skills C R).1 →
      s ∉ (SkillMatcher.find_matched_skills C R).2) ∧
    (SkillMatcher.find_matched_skills C R).1.Sublist R ∧
    (SkillMatcher.find_matched_skills C R).2.Sublist R := by
  intro C R
  rw [find_eq_filter]
  dsimp only
  refine ⟨filter_length_add _ _, ?_, ?_, List.filter_sublist _, List.filter_sublist _⟩
  · intro s
    by_cases h : anyMatch C s = true
    · have h1 : R.count s = ((R.filter (anyMatch C)).count s) := (List.count_filter h).symm
      have h2 : (R.filter (fun r => ! anyMatch C r)).count s = 0 := by
        rw [List.count_eq_zero]
        intro hm
        rw [List.mem_filter] at hm
        simp [h] at hm
      omega
    · have hb : (! anyMatch C s) = true := by simp [Bool.not_eq_true] at h ⊢; exact h
      have h1 : R.count s = ((R.filter (fun r => ! anyMatch C r)).count s) :=
        (@List.count_filter Str _ _ (fun r => ! anyMatch C r) s R hb).symm
      have h2 : (R.filter (anyMatch C)).count s = 0 := by
        rw [List.count_eq_zero]
        intro hm
        rw [List.mem_filter] at hm
        exact h hm.2
      omega
  · intro s h1 h2
    rw [List.mem_filter] at h1 h2
    have := h1.2
    have := h2.2
    simp_all

/-! ## C9: symmetry of skills_match -/

/-- C9: for all skill strings a and b, skills_match(a, b) equals
skills_match(b, a): equality of the normalized forms is symmetric and the
substring disjunction is commutative. -/
theorem c9_skills_match_symm : ∀ a b : Str,
    SkillMatcher.skills_match a b = SkillMatcher.skills_match b a := by
  intro a b
  simp only [SkillMatcher.skills_match]
  by_cases h : SkillMatcher.normalize_skill a = SkillMatcher.normalize_skill b
  · simp [h]
  · have h2 : ¬ SkillMatcher.normalize_skill b = SkillMatcher.normalize_skill a :=
      fun e => h e.symm
    simp only [h, h2, if_false]
    rw [Bool.or_comm]

/-! ## C8: validate_and_clean -/

lemma validate_and_clean_eq (s : Str) :
    JDParser.validate_and_clean s =
      if s = [] then
        Except.error ⟨400, "Job description is required and must be text."⟩
      else if (SkillMatcher.strip s).length < JDParser.MIN_JD_LENGTH then
        Except.error ⟨400, "Job description is too short. Minimum 50 characters required."⟩
      else
        Except.ok (SkillMatcher.strip s) := rfl

/-- C8: validate_and_clean(jd_text) fails with status 400 exactly when the
input is the empty string or its stripped form is shorter than
MIN_JD_LENGTH, and otherwise returns the stripped text.  (The Python
isinstance branch is outside this typed model: inputs are strings.) -/
theorem c8_validate_and_clean : ∀ jd_text : Str,
    ((∃ e, JDParser.validate_and_clean jd_text = Except.error e ∧ e.status_code = 400) ↔
      (jd_text = [] ∨ (SkillMatcher.strip jd_text).length < JDParser.MIN_JD_LENGTH)) ∧
    (∀ cleaned, JDParser.validate_and_clean jd_text = Except.ok cleaned →
      cleaned = SkillMatcher.strip jd_text) := by
  intro s
  rw [validate_and_clean_eq]
  split_ifs with h1 h2
  · constructor
    · constructor
      · intro _
        exact Or.inl h1
      · intro _
        exact ⟨_, rfl, rfl⟩
    · intro cleaned hc
      simp at hc
  · constructor
    · constructor
      · intro _
        exact Or.inr h2
      · intro _
        exact ⟨_, rfl, rfl⟩
    · intro cleaned hc
      simp at hc
  · constructor
    · constructor
      · intro he
        obtain ⟨e, he, _⟩ := he
        simp at he
      · intro hor
        rcases hor with h | h
        · exact absurd h h1
        · exact absurd h h2
    · intro cleaned hc
      simp at hc
      exact hc.symm

/-! ## Rounding helpers and C5 -/

lemma roundHalfEven_lt (q : ℚ) (z : ℤ) (hf : Int.floor q = z) (h : q - z < 1/2) :
    SkillMatcher.roundHalfEven q = z := by
  simp only [SkillMatcher.roundHalfEven, hf]
  rw [if_pos h]

lemma abs_roundHalfEven_sub (q : ℚ) : |q - SkillMatcher.roundHalfEven q| ≤ 1/2 := by
  have h1 : ((Int.floor q : ℤ) : ℚ) ≤ q := Int.floor_le q
  have h2 : q < (Int.floor q : ℚ) + 1 := Int.lt_floor_add_one q
  simp only [SkillMatcher.roundHalfEven]
  split_ifs with ha hb hc
  · rw [abs_le]
    constructor <;> linarith
  · have ha2 := not_lt.mp ha
    push_cast
    rw [abs_le]
    constructor <;> linarith
  · have hb2 := not_lt.mp hb
    rw [abs_le]
    constructor <;> linarith
  · have ha2 := not_lt.mp ha
    have hb2 := not_lt.mp hb
    push_cast
    rw [abs_le]
    constructor <;> linarith

lemma roundTo2_eval (q : ℚ) (z : ℤ) (hf : Int.floor (q * 100) = z)
    (h : q * 100 - z < 1/2) : SkillMatcher.roundTo2 q = (z : ℚ) / 100 := by
  unfold SkillMatcher.roundTo2
  rw [roundHalfEven_lt (q * 100) z hf h]

lemma cmp_three_four : SkillMatcher.calculate_match_percentage 3 4 = 75.0 := by
  unfold SkillMatcher.calculate_match_percentage
  rw [if_neg (by norm_num)]
  have e1 : ((3 : ℕ) : ℚ) / ((4 : ℕ) : ℚ) * 100 = 75 := by norm_num
  rw [e1, roundTo2_eval 75 7500 ?_ ?_]
  · norm_num
  · rw [show ((75 : ℚ) * 100) = ((7500 : ℤ) : ℚ) by norm_num, Int.floor_intCast]
  · norm_num

lemma cmp_one_three : SkillMatcher.calculate_match_percentage 1 3 = 33.33 := by
  unfold SkillMatcher.calculate_match_percentage
  rw [if_neg (by norm_num)]
  have e1 : ((1 : ℕ) : ℚ) / ((3 : ℕ) : ℚ) * 100 = 100/3 := by norm_num
  have hf : Int.floor ((100 : ℚ)/3 * 100) = 3333 := by
    rw [show ((100 : ℚ)/3 * 100) = 10000/3 by norm_num, Int.floor_eq_iff]
    constructor <;> norm_num
  rw [e1, roundTo2_eval (100/3) 3333 hf (by norm_num)]
  norm_num

/-- C5: calculate_match_percentage returns 100.0 when totalRequired is 0;
otherwise it returns matchedCount / totalRequired * 100 rounded to two
decimal places (the result is an integer number of hundredths within half a
hundredth of the exact ratio); calculate_match_percentage(3, 4) = 75.0 and
calculate_match_percentage(1, 3) = 33.33. -/
theorem c5_match_percentage :
    (∀ m : Nat, SkillMatcher.calculate_match_percentage m 0 = 100.0) ∧
    (∀ (m t : Nat), t ≠ 0 → ∃ k : ℤ,
      SkillMatcher.calculate_match_percentage m t = (k : ℚ) / 100 ∧
      |(m : ℚ) / (t : ℚ) * 100 - (k : ℚ) / 100| ≤ 1 / 200) ∧
    SkillMatcher.calculate_match_percentage 3 4 = 75.0 ∧
    SkillMatcher.calculate_match_percentage 1 3 = 33.33 := by
  refine ⟨?_, ?_, cmp_three_four, cmp_one_three⟩
  · intro m
    unfold SkillMatcher.calculate_match_percentage
    rw [if_pos rfl]
    norm_num
  · intro m t ht
    refine ⟨SkillMatcher.roundHalfEven ((m : ℚ) / (t : ℚ) * 100 * 100), ?_, ?_⟩
    · unfold SkillMatcher.calculate_match_percentage SkillMatcher.roundTo2
      rw [if_neg ht]
    · have h := abs_roundHalfEven_sub ((m : ℚ) / (t : ℚ) * 100 * 100)
      have e1 : (m : ℚ) / (t : ℚ) * 100 -
          (SkillMatcher.roundHalfEven ((m : ℚ) / (t : ℚ) * 100 * 100) : ℚ) / 100 =
          ((m : ℚ) / (t : ℚ) * 100 * 100 -
           (SkillMatcher.roundHalfEven ((m : ℚ) / (t : ℚ) * 100 * 100) : ℚ)) / 100 := by
        ring
      rw [e1, abs_div, abs_of_pos (show (0:ℚ) < 100 by norm_num),
        show (1 : ℚ)/200 = (1/2)/100 by norm_num]
      exact (div_le_div_iff_of_pos_right (by norm_num)).mpr h

/-! ## C1 amended -/

/-- C1 amended: for candidateSkills = ["JavaScript"] and requiredSkills =
["React", "TypeScript", "Node.js"], the code returns matched = ["Node.js"]
(via the substring rule on the normalized forms "js" and "nodejs"), missing
= ["React", "TypeScript"], and the match percentage 33.33. -/
theorem c1_amended :
    SkillMatcher.find_matched_skills [enc "JavaScript"]
      [enc "React", enc "TypeScript", enc "Node.js"] =
      ([enc "Node.js"], [enc "React", enc "TypeScript"]) ∧
    (SkillMatcher.match_resume_to_jd [enc "JavaScript"]
      [enc "React", enc "TypeScript", enc "Node.js"] []).match_percentage = 33.33 := by
  have hfind : SkillMatcher.find_matched_skills [enc "JavaScript"]
      [enc "React", enc "TypeScript", enc "Node.js"] =
      ([enc "Node.js"], [enc "React", enc "TypeScript"]) := by decide
  refine ⟨hfind, ?_⟩
  have e1 : (SkillMatcher.match_resume_to_jd [enc "JavaScript"]
      [enc "React", enc "TypeScript", enc "Node.js"] []).match_percentage =
      SkillMatcher.calculate_match_percentage 1 3 := by
    simp only [SkillMatcher.match_resume_to_jd, hfind]
    rfl
  rw [e1, cmp_one_three]

/-! ## C4: the job-extraction call and the (absent) result cache -/

/-- C4 as the spec states it, specialized to the code: routes.py keeps no
state between requests (the module holds no cache variable at all), so a
repeat of a request is the same pure invocation of analyze_resume.  The
claim says a successful analyze stores the extracted job data in the result
cache under the job-description fingerprint, and that the job-extraction
call is issued only when that fingerprint is absent from the cache — hence
repeating an already-successful request must not issue the job-extraction
call again. -/
def jdCallCachedClaim : Prop :=
  ∀ (o : Routes.LLMOracle) (resume_text : Except HTTPException Str) (jd : Str)
    (fa : Routes.FinalAnalysis),
    (Routes.analyze_resume o resume_text jd).1 = Except.ok fa →
    Routes.LLMCall.jdExtraction ∉ (Routes.analyze_resume o resume_text jd).2

/-- C4 counterexample: a concrete request that succeeds, yet its (repeated)
invocation issues the job-extraction call: analyze_resume consults no cache
and calls the model on every request. -/
theorem c4_counterexample : ¬ jdCallCachedClaim := by
  intro h
  have h2 := h
    ⟨Except.ok ⟨none, none, none, none, none⟩,
     Except.ok ⟨none, none, none⟩,
     Except.ok ⟨some "summary", some [], some [], some [], none⟩⟩
    (Except.ok (enc "resume text"))
    (enc "a job description text that is long enough to pass validation")
    ⟨"summary", 100, [], [], []⟩
    rfl
  exact h2 (by decide)

/-- C4 amended: the job-description extraction call is issued exactly once
on every request that passes PDF extraction, job-description validation and
résumé-reply parsing, unconditionally: routes.py consults no cache, stores
nothing, and keeps no state between requests. -/
theorem c4_amended (o : Routes.LLMOracle) (rt jd cleaned : Str)
    (rd : Routes.ResumeData)
    (hv : JDParser.validate_and_clean jd = Except.ok cleaned)
    (hr : o.parse_resume = Except.ok rd) :
    (Routes.analyze_resume o (Except.ok rt) jd).2.count
      Routes.LLMCall.jdExtraction = 1 := by
  simp only [Routes.analyze_resume, hv, hr]
  cases hj : o.parse_job_description with
  | error msg => rfl
  | ok jdd =>
    cases ha : o.create_final_analysis with
    | error msg => rfl
    | ok a =>
      dsimp only
      cases hcs : a.candidate_summary <;> cases hst : a.strengths <;>
        cases hgp : a.gaps <;> cases him : a.improvement_suggestions <;> rfl

/-- C4 witness: a concrete request on which the amended theorem applies. -/
theorem c4_witness :
    (Routes.analyze_resume
      ⟨Except.ok ⟨none, none, none, none, none⟩,
       Except.ok ⟨none, none, none⟩,
       Except.error "upstream failure"⟩
      (Except.ok (enc "resume text"))
      (enc "a job description text that is long enough to pass validation")).2.count
      Routes.LLMCall.jdExtraction = 1 :=
  c4_amended
    ⟨Except.ok ⟨none, none, none, none, none⟩,
     Except.ok ⟨none, none, none⟩,
     Except.error "upstream failure"⟩
    (enc "resume text")
    (enc "a job description text that is long enough to pass validation")
    (enc "a job description text that is long enough to pass validation")
    ⟨none, none, none, none, none⟩
    rfl rfl

/-! ## C6: missing keys in the synthesis reply -/

/-- C6 as the spec states it: whenever the synthesis reply parses as a
top-level JSON object (the oracle returns ok) and analyze actually consumed
it (the synthesis call appears in the trace), the request completes, with
defaults substituted for missing keys; only a top-level parse failure is
fatal. -/
def synthesisDefaultsClaim : Prop :=
  ∀ (o : Routes.LLMOracle) (rt jd : Str) (a : Routes.AnalysisData),
    o.create_final_analysis = Except.ok a →
    Routes.LLMCall.synthesis ∈ (Routes.analyze_resume o (Except.ok rt) jd).2 →
    ∃ fa, (Routes.analyze_resume o (Except.ok rt) jd).1 = Except.ok fa

/-- C6 counterexample: a synthesis reply that parses as the empty JSON
object makes the request fail: routes.py reads the four narrative keys with
plain indexing, so the KeyError is caught as a 500 server error rather than
being replaced by a default. -/
theorem c6_counterexample : ¬ synthesisDefaultsClaim := by
  intro h
  obtain ⟨fa, hfa⟩ := h
    ⟨Except.ok ⟨none, none, none, none, none⟩,
     Except.ok ⟨none, none, none⟩,
     Except.ok ⟨none, none, none, none, none⟩⟩
    (enc "resume text")
    (enc "a job description text that is long enough to pass validation")
    ⟨none, none, none, none, none⟩
    rfl
    (by decide)
  rw [show (Routes.analyze_resume
      ⟨Except.ok ⟨none, none, none, none, none⟩,
       Except.ok ⟨none, none, none⟩,
       Except.ok ⟨none, none, none, none, none⟩⟩
      (Except.ok (enc "resume text"))
      (enc "a job description text that is long enough to pass validation")).1 =
      Except.error ⟨500, "Unexpected error during analysis: KeyError"⟩ from rfl] at hfa
  cases hfa

/-- C6 amended: given a reply object for each of the three calls, the
request completes exactly when the synthesis reply carries all four
narrative keys; the extraction replies may miss any key (their skill lists
default to empty, and the request still completes), but a narrative key
missing from the synthesis reply fails the request. -/
theorem c6_amended (o : Routes.LLMOracle) (rt jd cleaned : Str)
    (rd : Routes.ResumeData) (jdd : Routes.JDData) (a : Routes.AnalysisData)
    (hv : JDParser.validate_and_clean jd = Except.ok cleaned)
    (hr : o.parse_resume = Except.ok rd)
    (hj : o.parse_job_description = Except.ok jdd)
    (ha : o.create_final_analysis = Except.ok a) :
    (∃ fa, (Routes.analyze_resume o (Except.ok rt) jd).1 = Except.ok fa) ↔
      (a.candidate_summary.isSome ∧ a.strengths.isSome ∧ a.gaps.isSome ∧
       a.improvement_suggestions.isSome) := by
  simp only [Routes.analyze_resume, hv, hr, hj, ha]
  cases hcs : a.candidate_summary <;> cases hst : a.strengths <;>
    cases hgp : a.gaps <;> cases him : a.improvement_suggestions <;> simp

/-- C6 witness: with all four narrative keys present (and every extraction
key absent), the concrete request completes. -/
theorem c6_witness :
    ∃ fa, (Routes.analyze_resume
      ⟨Except.ok ⟨none, none, none, none, none⟩,
       Except.ok ⟨none, none, none⟩,
       Except.ok ⟨some "summary", some ["python"], some [], some [], none⟩⟩
      (Except.ok (enc "resume text"))
      (enc "a job description text that is long enough to pass validation")).1 =
      Except.ok fa :=
  (c6_amended
    ⟨Except.ok ⟨none, none, none, none, none⟩,
     Except.ok ⟨none, none, none⟩,
     Except.ok ⟨some "summary", some ["python"], some [], some [], none⟩⟩
    (enc "resume text")
    (enc "a job description text that is long enough to pass validation")
    (enc "a job description text that is long enough to pass validation")
    ⟨none, none, none, none, none⟩
    ⟨none, none, none⟩
    ⟨some "summary", some ["python"], some [], some [], none⟩
    rfl rfl rfl rfl).mpr (by simp)

/-! ## C7: the match percentage is computed locally -/

lemma analyze_setReplyPercentage (o : Routes.LLMOracle) (q : Option ℚ)
    (resume_text : Except HTTPException Str) (jd : Str) :
    Routes.analyze_resume (Routes.setReplyPercentage o q) resume_text jd =
      Routes.analyze_resume o resume_text jd := by
  unfold Routes.analyze_resume Routes.setReplyPercentage
  cases resume_text with
  | error e => rfl
  | ok rt =>
    dsimp only
    cases JDParser.validate_and_clean jd with
    | error e => rfl
    | ok cleaned =>
      cases o.parse_resume with
      | error m => rfl
      | ok rd =>
        cases o.parse_job_description with
        | error m => rfl
        | ok jdd =>
          cases o.create_final_analysis with
          | error m => rfl
          | ok a =>
            dsimp only [Except.map]

/-- C7: when analyze succeeds, the match_percentage of the returned
FinalAnalysis is the one the local skill matcher computes from the extracted
skill lists; and the whole endpoint result is unchanged if the percentage
the model echoes back in its synthesis reply is replaced by anything else —
the value is never taken from the model's reply. -/
theorem c7_percentage_local (o : Routes.LLMOracle) (rt jd : Str)
    (fa : Routes.FinalAnalysis) (rd : Routes.ResumeData) (jdd : Routes.JDData)
    (hr : o.parse_resume = Except.ok rd)
    (hj : o.parse_job_description = Except.ok jdd)
    (h : (Routes.analyze_resume o (Except.ok rt) jd).1 = Except.ok fa) :
    fa.match_percentage = (SkillMatcher.match_resume_to_jd (rd.skills.getD [])
      (jdd.required_skills.getD [])
      (jdd.nice_to_have_skills.getD [])).match_percentage ∧
    ∀ q, Routes.analyze_resume (Routes.setReplyPercentage o q) (Except.ok rt) jd =
      Routes.analyze_resume o (Except.ok rt) jd := by
  constructor
  · simp only [Routes.analyze_resume, hr, hj] at h
    cases hv : JDParser.validate_and_clean jd with
    | error e =>
      rw [hv] at h
      cases h
    | ok cleaned =>
      rw [hv] at h
      dsimp only at h
      cases ha : o.create_final_analysis with
      | error msg =>
        rw [ha] at h
        cases h
      | ok a =>
        rw [ha] at h
        dsimp only at h
        cases hcs : a.candidate_summary <;> rw [hcs] at h <;>
          cases hst : a.strengths <;> rw [hst] at h <;>
          cases hgp : a.gaps <;> rw [hgp] at h <;>
          cases him : a.improvement_suggestions <;> rw [him] at h <;>
          (cases h <;> rfl)
  · intro q
    exact analyze_setReplyPercentage o q (Except.ok rt) jd

/-- C7 witness: the theorem applied at a concrete successful request; with
no required skills extracted, the locally computed percentage is 100. -/
theorem c7_witness :
    (100 : ℚ) = (SkillMatcher.match_resume_to_jd [] [] []).match_percentage :=
  (c7_percentage_local
    ⟨Except.ok ⟨none, none, none, none, none⟩,
     Except.ok ⟨none, none, none⟩,
     Except.ok ⟨some "summary", some [], some [], some [], none⟩⟩
    (enc "resume text")
    (enc "a job description text that is long enough to pass validation")
    ⟨"summary", 100, [], [], []⟩
    ⟨none, none, none, none, none⟩
    ⟨none, none, none⟩
    rfl rfl rfl).1

/-! ## C10: normalize_skill is idempotent -/

lemma dropWhile_idem (p : Nat → Bool) (l : List Nat) :
    (l.dropWhile p).dropWhile p = l.dropWhile p := by
  induction l with
  | nil => rfl
  | cons a t ih =>
    by_cases h : p a
    · simp [List.dropWhile_cons, h, ih]
    · simp [List.dropWhile_cons, h]

/-- The left half of strip: drop leading whitespace. -/
def ltrim (l : Str) : Str := l.dropWhile SkillMatcher.isSpaceChar

/-- The right half of strip: drop trailing whitespace. -/
def rtrim (l : Str) : Str := (l.reverse.dropWhile SkillMatcher.isSpaceChar).reverse

lemma strip_eq (s : Str) : SkillMatcher.strip s = rtrim (ltrim s) := rfl

lemma ltrim_idem (l : Str) : ltrim (ltrim l) = ltrim l := dropWhile_idem _ l

lemma rtrim_idem (l : Str) : rtrim (rtrim l) = rtrim l := by
  unfold rtrim
  rw [List.reverse_reverse, dropWhile_idem]

lemma rtrim_cons (a : Nat) (t : Str) :
    rtrim (a :: t) =
      if (t.reverse.dropWhile SkillMatcher.isSpaceChar).isEmpty then
        (([a] : Str).dropWhile SkillMatcher.isSpaceChar).reverse
      else a :: rtrim t := by
  unfold rtrim
  rw [List.reverse_cons, List.dropWhile_append]
  by_cases hE : (t.reverse.dropWhile SkillMatcher.isSpaceChar).isEmpty
  · rw [if_pos hE, if_pos hE]
  · rw [if_neg hE, if_neg hE, List.reverse_append]
    rfl

lemma ltrim_rtrim_comm (l : Str) : ltrim (rtrim l) = rtrim (ltrim l) := by
  induction l with
  | nil => rfl
  | cons a t ih =>
    rw [rtrim_cons]
    by_cases hE : (t.reverse.dropWhile SkillMatcher.isSpaceChar).isEmpty
    · rw [if_pos hE]
      have hall : ∀ x ∈ t, SkillMatcher.isSpaceChar x = true := by
        have h0 : t.reverse.dropWhile SkillMatcher.isSpaceChar = [] := List.isEmpty_iff.mp hE
        have h3 := List.dropWhile_eq_nil_iff.mp h0
        intro x hx
        exact h3 x (List.mem_reverse.mpr hx)
      by_cases ha : SkillMatcher.isSpaceChar a
      · rw [show (([a] : Str).dropWhile SkillMatcher.isSpaceChar) = [] by
          simp [List.dropWhile_cons, ha]]
        have h1 : ltrim (a :: t) = ltrim t := by simp [ltrim, List.dropWhile_cons, ha]
        have h2 : ltrim t = [] := List.dropWhile_eq_nil_iff.mpr hall
        rw [h1, h2]
        rfl
      · rw [show (([a] : Str).dropWhile SkillMatcher.isSpaceChar) = [a] by
          simp [List.dropWhile_cons, ha]]
        have h1 : ltrim (a :: t) = a :: t := by simp [ltrim, List.dropWhile_cons, ha]
        rw [h1, rtrim_cons, if_pos hE, show (([a] : Str).dropWhile SkillMatcher.isSpaceChar) = [a] by
          simp [List.dropWhile_cons, ha]]
        simp [ltrim, List.dropWhile_cons, ha]
    · rw [if_neg hE]
      by_cases ha : SkillMatcher.isSpaceChar a
      · have h1 : ltrim (a :: rtrim t) = ltrim (rtrim t) := by
          simp [ltrim, List.dropWhile_cons, ha]
        have h2 : ltrim (a :: t) = ltrim t := by simp [ltrim, List.dropWhile_cons, ha]
        rw [h1, h2, ih]
      · have h1 : ltrim (a :: rtrim t) = a :: rtrim t := by
          simp [ltrim, List.dropWhile_cons, ha]
        have h2 : ltrim (a :: t) = a :: t := by simp [ltrim, List.dropWhile_cons, ha]
        rw [h1, h2, rtrim_cons, if_neg hE]

lemma strip_idem (s : Str) :
    SkillMatcher.strip (SkillMatcher.strip s) = SkillMatcher.strip s := by
  simp only [strip_eq]
  rw [ltrim_rtrim_comm, ltrim_idem, rtrim_idem]

lemma lowerChar_idem (c : Nat) :
    SkillMatcher.lowerChar (SkillMatcher.lowerChar c) = SkillMatcher.lowerChar c := by
  unfold SkillMatcher.lowerChar
  by_cases h : 65 ≤ c ∧ c ≤ 90
  · simp only [if_pos h]
    rw [if_neg (by omega)]
  · simp only [if_neg h]

lemma lower_idem (s : Str) :
    SkillMatcher.lower (SkillMatcher.lower s) = SkillMatcher.lower s := by
  unfold SkillMatcher.lower
  rw [List.map_map]
  exact List.map_congr_left (fun a _ => lowerChar_idem a)

lemma isSpaceChar_eq_false_of_ge (c : Nat) (h : 33 ≤ c) :
    SkillMatcher.isSpaceChar c = false := by
  simp only [SkillMatcher.isSpaceChar, Bool.or_eq_false_iff, beq_eq_false_iff_ne, ne_eq]
  omega

lemma isSpaceChar_lowerChar (c : Nat) :
    SkillMatcher.isSpaceChar (SkillMatcher.lowerChar c) = SkillMatcher.isSpaceChar c := by
  unfold SkillMatcher.lowerChar
  by_cases h : 65 ≤ c ∧ c ≤ 90
  · rw [if_pos h, isSpaceChar_eq_false_of_ge (c + 32) (by omega),
      isSpaceChar_eq_false_of_ge c (by omega)]
  · rw [if_neg h]

lemma lower_ltrim (s : Str) :
    SkillMatcher.lower (ltrim s) = ltrim (SkillMatcher.lower s) := by
  unfold SkillMatcher.lower ltrim
  have hpf : SkillMatcher.isSpaceChar ∘ SkillMatcher.lowerChar = SkillMatcher.isSpaceChar :=
    funext isSpaceChar_lowerChar
  rw [List.dropWhile_map, hpf]

lemma lower_reverse (s : Str) :
    SkillMatcher.lower s.reverse = (SkillMatcher.lower s).reverse :=
  List.map_reverse _ _

lemma lower_rtrim (s : Str) :
    SkillMatcher.lower (rtrim s) = rtrim (SkillMatcher.lower s) := by
  show SkillMatcher.lower (ltrim s.reverse).reverse =
    (ltrim (SkillMatcher.lower s).reverse).reverse
  rw [lower_reverse, lower_ltrim, lower_reverse]

lemma lower_strip (s : Str) :
    SkillMatcher.lower (SkillMatcher.strip s) =
      SkillMatcher.strip (SkillMatcher.lower s) := by
  simp only [strip_eq]
  rw [lower_rtrim, lower_ltrim]

lemma foldl_replace_cases (ps : List (Str × Str)) (x : Str) :
    List.foldl (fun n p => if n = p.1 then p.2 else n) x ps = x ∨
      List.foldl (fun n p => if n = p.1 then p.2 else n) x ps ∈ ps.map Prod.snd := by
  induction ps generalizing x with
  | nil => exact Or.inl rfl
  | cons p ps ih =>
    simp only [List.foldl_cons, List.map_cons]
    rcases ih (if x = p.1 then p.2 else x) with h | h
    · rw [h]
      by_cases hx : x = p.1
      · rw [if_pos hx]
        exact Or.inr (List.mem_cons_self _ _)
      · rw [if_neg hx]
        exact Or.inl rfl
    · exact Or.inr (List.mem_cons_of_mem _ h)

lemma applyReplacements_cases (x : Str) :
    SkillMatcher.applyReplacements x = x ∨
      SkillMatcher.applyReplacements x ∈ SkillMatcher.replacements.map Prod.snd :=
  foldl_replace_cases SkillMatcher.replacements x

lemma normalize_fix_values :
    ∀ v ∈ SkillMatcher.replacements.map Prod.snd,
      SkillMatcher.normalize_skill v = v := by
  decide

/-- C10: normalize_skill is idempotent: applying it twice gives the same
result as applying it once.  Lower-casing and stripping are idempotent and
commute, and no canonical value of the alias table is itself an alias key
(each value is already lower-case, stripped, and fixed by the table). -/
theorem c10_normalize_idem : ∀ s : Str,
    SkillMatcher.normalize_skill (SkillMatcher.normalize_skill s) =
      SkillMatcher.normalize_skill s := by
  intro s
  rcases applyReplacements_cases (SkillMatcher.strip (SkillMatcher.lower s)) with h | h
  · have e1 : SkillMatcher.strip (SkillMatcher.lower
        (SkillMatcher.strip (SkillMatcher.lower s))) =
        SkillMatcher.strip (SkillMatcher.lower s) := by
      rw [lower_strip, lower_idem, strip_idem]
    unfold SkillMatcher.normalize_skill
    rw [h, e1, h]
  · exact normalize_fix_values _ h
